import Mathlib

/-!
Shallow embedding of the pidgeon apartment-listing pipeline and scoring
engine, translated from `src/pidgeon/pipelines.py`, `src/pidgeon/items.py`
and `src/pidgeon/analysis/analyzer.py`.

Python scalars held in scrapy items are modelled by the inductive `Value`
(absent fields read back as `None`, hence `vNone`).  Floats appearing in
the scoring engine are modelled by real numbers.
-/

namespace Pidgeon

/-- Python scalar values that occur in scrapy item fields:
`None`, strings, integers and booleans. -/
inductive Value
  | vNone
  | vStr (s : String)
  | vInt (n : Int)
  | vBool (b : Bool)
  deriving DecidableEq, Repr

/-- Python truthiness of a `Value` (`bool(v)`): `None`, the empty string,
`0` and `False` are falsy, everything else is truthy. -/
def truthy : Value → Bool
  | .vNone => false
  | .vStr s => s != ""
  | .vInt n => n != 0
  | .vBool b => b

/-- An `ApartmentItem` from `src/pidgeon/items.py`: every recognized field
is a slot holding a Python scalar; an absent field reads back as `vNone`,
matching `item.get(f)` returning `None`. -/
structure Item where
  url : Value
  source : Value
  address : Value
  price : Value
  fee : Value
  price_per_m2 : Value
  rooms : Value
  year_built : Value
  housing_cooperative : Value
  has_elevator : Value
  has_balcony : Value
  floor : Value
  total_floors : Value
  scraped_at : Value
  deriving DecidableEq, Repr

/-- An item with every field absent. -/
def blankItem : Item :=
  { url := .vNone, source := .vNone, address := .vNone, price := .vNone,
    fee := .vNone, price_per_m2 := .vNone, rooms := .vNone,
    year_built := .vNone, housing_cooperative := .vNone,
    has_elevator := .vNone, has_balcony := .vNone, floor := .vNone,
    total_floors := .vNone, scraped_at := .vNone }

/-- `DuplicatesPipeline` from `src/pidgeon/pipelines.py`, run over a whole
item stream.  The pipeline keeps a `seen_urls` set; for each item it reads
`item.get('url')` (which may be `None`), rejects the item if that key is
in the set and otherwise adds the key and accepts.  The returned list
marks each item in arrival order with `true` (accepted) or `false`
(dropped as duplicate). -/
def dedupRun : List Value → List Item → List Bool
  | _, [] => []
  | seen, it :: its =>
    if it.url ∈ seen then false :: dedupRun seen its
    else true :: dedupRun (it.url :: seen) its

/-- A concrete item with a url, used to instantiate theorems. -/
def itemA : Item :=
  { blankItem with
    url := .vStr "https://x/1"
    source := .vStr "hemnet"
    address := .vStr "A street 1" }

/-- A second item with the same url as `itemA` but different fields. -/
def itemB : Item :=
  { blankItem with
    url := .vStr "https://x/1"
    source := .vStr "booli"
    address := .vStr "B street 2"
    price := .vInt 1000000 }

/-- A concrete item lacking the url field. -/
def itemC : Item := { blankItem with address := .vStr "C street 3" }

/-- A second item lacking the url field, with different other fields. -/
def itemD : Item :=
  { blankItem with
    address := .vStr "D street 4"
    price := .vInt 2000000 }

/-- Python `s.replace(' ', '').replace(',', '')`: remove every space and
comma character from the string. -/
def stripSpacesCommas (s : String) : String :=
  String.mk (s.data.filter fun c => c != ' ' && c != ',')

/-- Code points CPython strips as surrounding whitespace when parsing
`int(s)`: the ASCII whitespace 9-13 and 32 (the ASCII parser's
`Py_ISSPACE`; the separator controls 28-31 are NOT stripped), plus the
non-ASCII Unicode whitespace, which the decimal transform first maps to
a space: NEL 0x85, NBSP 0xA0, Ogham space 0x1680, the typographic
spaces 0x2000-0x200A, the line/paragraph separators 0x2028/0x2029,
narrow NBSP 0x202F, medium mathematical space 0x205F and ideographic
space 0x3000. -/
def pySpaceCodes : List ℕ :=
  [0x09, 0x0A, 0x0B, 0x0C, 0x0D, 0x20, 0x85, 0xA0,
    0x1680, 0x2000, 0x2001, 0x2002, 0x2003, 0x2004, 0x2005, 0x2006, 0x2007,
    0x2008, 0x2009, 0x200A, 0x2028, 0x2029, 0x202F, 0x205F, 0x3000]

/-- Whether `int()` strips this character as surrounding whitespace. -/
def pyIsSpace (c : Char) : Bool := pySpaceCodes.contains c.toNat

/-- First code points of the Unicode `Nd` (decimal digit) blocks, each a
run of ten consecutive digits 0-9: ASCII, Arabic-Indic, Extended
Arabic-Indic, NKo, the Indic scripts, Thai, Lao, Tibetan, Myanmar,
Khmer, Mongolian, the South-East Asian and African scripts, the
fullwidth digits, the supplementary-plane scripts, the five mathematical
digit styles and the segmented digits.  Python's `int()` accepts any of
these digits (`Py_UNICODE_TODECIMAL`); the exact set tracks the
interpreter's Unicode tables, fixed here at Unicode 15.0 (CPython 3.12
and later; 3.11's Unicode 14.0 lacks only the final two entries on the
supplementary plane, Kawi 0x11F50 and Nag Mundari 0x1E4F0). -/
def ndZeros : List ℕ :=
  [0x0030, 0x0660, 0x06F0, 0x07C0, 0x0966, 0x09E6, 0x0A66, 0x0AE6, 0x0B66,
    0x0BE6, 0x0C66, 0x0CE6, 0x0D66, 0x0DE6, 0x0E50, 0x0ED0, 0x0F20, 0x1040,
    0x1090, 0x17E0, 0x1810, 0x1946, 0x19D0, 0x1A80, 0x1A90, 0x1B50, 0x1BB0,
    0x1C40, 0x1C50, 0xA620, 0xA8D0, 0xA900, 0xA9D0, 0xA9F0, 0xAA50, 0xABF0,
    0xFF10, 0x104A0, 0x10D30, 0x11066, 0x110F0, 0x11136, 0x111D0, 0x112F0,
    0x11450, 0x114D0, 0x11650, 0x116C0, 0x11730, 0x118E0, 0x11950, 0x11C50,
    0x11D50, 0x11DA0, 0x11F50, 0x16A60, 0x16AC0, 0x16B50, 0x1D7CE, 0x1D7D8,
    0x1D7E2, 0x1D7EC, 0x1D7F6, 0x1E140, 0x1E2F0, 0x1E4F0, 0x1E950, 0x1FBF0]

/-- Decimal value of a character under Python `int()`: its offset inside
the Unicode `Nd` run containing it, `none` for any other character. -/
def pyDigitVal (c : Char) : Option ℕ :=
  (ndZeros.find? fun z => z ≤ c.toNat && c.toNat ≤ z + 9).map
    fun z => c.toNat - z

/-- Digit tail of Python's integer grammar, `('_'? digit)*`, with `acc`
the value read so far: an underscore must be followed by a digit, so a
trailing or doubled underscore fails, as in `int()`. -/
def parseDigitsGo (acc : ℕ) : List Char → Option ℕ
  | [] => some acc
  | ['_'] => none
  | '_' :: c :: cs =>
    match pyDigitVal c with
    | some d => parseDigitsGo (10 * acc + d) cs
    | none => none
  | c :: cs =>
    match pyDigitVal c with
    | some d => parseDigitsGo (10 * acc + d) cs
    | none => none

/-- Body of Python's integer grammar, `digit ('_'? digit)*`: at least one
digit, underscores only between digits. -/
def parseDigitsU : List Char → Option ℕ
  | [] => none
  | c :: cs =>
    match pyDigitVal c with
    | some d => parseDigitsGo d cs
    | none => none

/-- Python `int(s)` on a string: surrounding whitespace is stripped, then
an optional ASCII sign is followed by at least one Unicode decimal digit,
with single underscores allowed between digits; anything else raises
`ValueError`, modelled as `none`. -/
def pyIntOfString (s : String) : Option Int :=
  match ((s.data.dropWhile pyIsSpace).reverse.dropWhile pyIsSpace).reverse with
  | '-' :: rest => (parseDigitsU rest).map fun n => -(n : Int)
  | '+' :: rest => (parseDigitsU rest).map fun n => (n : Int)
  | rest => (parseDigitsU rest).map fun n => (n : Int)

/-- Models `int(str(v).replace(' ', '').replace(',', ''))` from
`ValidationPipeline.process_item`: an int round-trips through its decimal
string form; a string is parsed after removing spaces and commas; `None`
and booleans stringify to `None`/`True`/`False`, which do not parse. -/
def parseIntPy : Value → Option Int
  | .vInt n => some n
  | .vStr s => pyIntOfString (stripSpacesCommas s)
  | _ => none

/-- A price value is fatal exactly when it parses and the parsed number
is non-positive (`price <= 0` raises `DropItem`); a parse failure only
logs a warning. -/
def priceFatal (v : Value) : Bool :=
  match parseIntPy v with
  | some n => decide (n ≤ 0)
  | none => false

/-- A fee value is fatal exactly when it parses and the parsed number is
negative (`fee < 0` raises `DropItem`); a parse failure only logs a
warning. -/
def feeFatal (v : Value) : Bool :=
  match parseIntPy v with
  | some n => decide (n < 0)
  | none => false

/-- `ValidationPipeline.process_item` from `src/pidgeon/pipelines.py`.
Checks required fields `url`, `source`, `address` for truthiness, then
drops the item when a truthy price parses non-positive or a truthy fee
parses negative.  The rooms and year-built checks in the source only log
warnings and never drop, so they do not appear in the result; likewise an
unparseable price or fee is only logged (the source comments this with
"Don't drop item, just log warning"). -/
def validateItem (it : Item) : Except String Item :=
  if truthy it.url = false then .error "Missing required field: url"
  else if truthy it.source = false then .error "Missing required field: source"
  else if truthy it.address = false then .error "Missing required field: address"
  else if (truthy it.price && priceFatal it.price) = true then .error "Invalid price"
  else if (truthy it.fee && feeFatal it.fee) = true then .error "Invalid fee"
  else .ok it

/-- Boolean standardization in `DataEnrichmentPipeline.process_item`:
when the field is not `None` it is replaced by `bool(value)`, Python
truthiness. -/
def coerceBool (v : Value) : Value :=
  if v = Value.vNone then v else Value.vBool (truthy v)

/-- `DataEnrichmentPipeline.process_item` from `src/pidgeon/pipelines.py`
with the wall clock passed explicitly: the price-per-m2 branch of the
source is a no-op (`pass`), the elevator/balcony fields are coerced with
`bool(...)` when present, and `scraped_at` is stamped with
`datetime.now().isoformat()` (the `now` argument) only when it is falsy. -/
def enrichItem (now : String) (it : Item) : Item :=
  let it1 : Item :=
    { it with
      has_elevator := coerceBool it.has_elevator
      has_balcony := coerceBool it.has_balcony }
  if truthy it1.scraped_at then it1
  else { it1 with scraped_at := Value.vStr now }

/-- An otherwise-valid item whose price does not parse as a number. -/
def itemBadPrice : Item :=
  { blankItem with
    url := .vStr "https://x/2"
    source := .vStr "hemnet"
    address := .vStr "E street 5"
    price := .vStr "not a number" }

/-- An otherwise-valid item whose price carries a leading tab and a
negative sign, which Python `int()` parses to a negative number. -/
def itemTabPrice : Item :=
  { blankItem with
    url := .vStr "https://x/5"
    source := .vStr "booli"
    address := .vStr "G street 7"
    price := .vStr "\t-5" }

/-- An already-clean item: strict-boolean amenity fields and a truthy
`scraped_at` timestamp. -/
def itemClean : Item :=
  { blankItem with
    url := .vStr "https://x/4"
    source := .vStr "booli"
    address := .vStr "F street 6"
    has_elevator := .vBool true
    has_balcony := .vBool false
    scraped_at := .vStr "2024-01-01T00:00:00" }

/-- `ScoringWeights` from `src/pidgeon/analysis/analyzer.py`; Python
floats are modelled as reals. -/
structure ScoringWeights where
  price_weight : ℝ
  fee_weight : ℝ
  price_per_m2_weight : ℝ
  rooms_weight : ℝ
  year_built_weight : ℝ
  elevator_weight : ℝ
  balcony_weight : ℝ
  floor_weight : ℝ

/-- The default field values of `ScoringWeights`. -/
def defaultWeights : ScoringWeights :=
  { price_weight := 0.3, fee_weight := 0.2, price_per_m2_weight := 0.25,
    rooms_weight := 0.1, year_built_weight := 0.1, elevator_weight := 0.03,
    balcony_weight := 0.02, floor_weight := 0 }

/-- `ScoringPreferences` from `src/pidgeon/analysis/analyzer.py`.  The
numeric reference points are modelled as reals; the two floor-band bounds
are `Optional[int]` in the source, kept as `Option ℤ`. -/
structure ScoringPreferences where
  max_preferred_price : ℝ
  min_acceptable_price : ℝ
  max_preferred_fee : ℝ
  min_acceptable_fee : ℝ
  max_preferred_price_per_m2 : ℝ
  min_acceptable_price_per_m2 : ℝ
  min_preferred_rooms : ℝ
  max_preferred_rooms : ℝ
  min_preferred_year : ℝ
  preferred_year_threshold : ℝ
  preferred_min_floor : Option ℤ
  preferred_max_floor : Option ℤ
  avoid_ground_floor : Bool

/-- The default field values of `ScoringPreferences`. -/
def defaultPreferences : ScoringPreferences :=
  { max_preferred_price := 4000000, min_acceptable_price := 1000000,
    max_preferred_fee := 5000, min_acceptable_fee := 2000,
    max_preferred_price_per_m2 := 70000, min_acceptable_price_per_m2 := 30000,
    min_preferred_rooms := 2, max_preferred_rooms := 4,
    min_preferred_year := 1960, preferred_year_threshold := 1990,
    preferred_min_floor := some 2, preferred_max_floor := some 6,
    avoid_ground_floor := true }

/-- Python truthiness of an `Optional[int]`: `None` and `0` are falsy. -/
def intTruthy : Option ℤ → Bool
  | none => false
  | some n => n != 0

/-- A cleaned apartment row as consumed by the scoring methods: numeric
columns are a number or NaN/absent (`Option ℝ`), amenity columns are
strict booleans after `clean_data`. -/
structure Apartment where
  price : Option ℝ
  fee : Option ℝ
  price_per_m2 : Option ℝ
  rooms : Option ℝ
  year_built : Option ℝ
  floor : Option ℝ
  total_floors : Option ℝ
  has_elevator : Bool
  has_balcony : Bool

/-- `ApartmentAnalyzer.score_price`: missing price scores 0; a price at
or below the preferred maximum is scored by clamped linear interpolation;
above it by exponential decay with factor 0.3. -/
noncomputable def score_price (p : ScoringPreferences) (price : Option ℝ) : ℝ :=
  match price with
  | none => 0
  | some v =>
    if v ≤ p.max_preferred_price then
      max 0 (min 1 (1 - (v - p.min_acceptable_price) /
        (p.max_preferred_price - p.min_acceptable_price)))
    else
      max 0 (0.3 * Real.exp (-((v - p.max_preferred_price) / p.max_preferred_price)))

/-- `ApartmentAnalyzer.score_fee`: missing fee scores 0.5 (neutral);
otherwise as `score_price` with the fee preferences. -/
noncomputable def score_fee (p : ScoringPreferences) (fee : Option ℝ) : ℝ :=
  match fee with
  | none => 0.5
  | some v =>
    if v ≤ p.max_preferred_fee then
      max 0 (min 1 (1 - (v - p.min_acceptable_fee) /
        (p.max_preferred_fee - p.min_acceptable_fee)))
    else
      max 0 (0.3 * Real.exp (-((v - p.max_preferred_fee) / p.max_preferred_fee)))

/-- `ApartmentAnalyzer.score_price_per_m2`: missing data scores 0.5;
otherwise as `score_price` with decay factor 0.2. -/
noncomputable def score_price_per_m2 (p : ScoringPreferences) (ppm2 : Option ℝ) : ℝ :=
  match ppm2 with
  | none => 0.5
  | some v =>
    if v ≤ p.max_preferred_price_per_m2 then
      max 0 (min 1 (1 - (v - p.min_acceptable_price_per_m2) /
        (p.max_preferred_price_per_m2 - p.min_acceptable_price_per_m2)))
    else
      max 0 (0.2 * Real.exp
        (-((v - p.max_preferred_price_per_m2) / p.max_preferred_price_per_m2)))

/-- `ApartmentAnalyzer.score_rooms`: 1 inside the preferred band,
proportional penalty floored at 0 below it, diminishing returns floored
at 0.1 above it, 0.5 when missing. -/
noncomputable def score_rooms (p : ScoringPreferences) (rooms : Option ℝ) : ℝ :=
  match rooms with
  | none => 0.5
  | some v =>
    if p.min_preferred_rooms ≤ v ∧ v ≤ p.max_preferred_rooms then 1
    else if v < p.min_preferred_rooms then max 0 (v / p.min_preferred_rooms)
    else max 0.1 (1 - 0.1 * (v - p.max_preferred_rooms))

/-- `ApartmentAnalyzer.score_year_built`: 1 at or above the threshold,
linear interpolation floored at 0.1 between the minimum year and the
threshold, 0.1 below the minimum, 0.5 when missing. -/
noncomputable def score_year_built (p : ScoringPreferences) (year : Option ℝ) : ℝ :=
  match year with
  | none => 0.5
  | some y =>
    if p.preferred_year_threshold ≤ y then 1
    else if p.min_preferred_year ≤ y then
      max 0.1 ((y - p.min_preferred_year) /
        (p.preferred_year_threshold - p.min_preferred_year))
    else 0.1

/-- `ApartmentAnalyzer.score_floor`: 0.5 when missing; 0.2 when the
ground floor is avoided and the floor is at most 1; otherwise, when both
band bounds are truthy (non-`None` and non-zero), 1 inside the band, 0.6
below it, 0.7 above it; 0.8 when no band applies.  The `total_floors`
argument is accepted and ignored, as in the source. -/
noncomputable def score_floor (p : ScoringPreferences)
    (floor total_floors : Option ℝ) : ℝ :=
  match floor with
  | none => 0.5
  | some f =>
    if p.avoid_ground_floor = true ∧ f ≤ 1 then 0.2
    else if intTruthy p.preferred_min_floor = true ∧
        intTruthy p.preferred_max_floor = true then
      if ((p.preferred_min_floor.getD 0 : ℤ) : ℝ) ≤ f ∧
          f ≤ ((p.preferred_max_floor.getD 0 : ℤ) : ℝ) then 1
      else if f < ((p.preferred_min_floor.getD 0 : ℤ) : ℝ) then 0.6
      else 0.7
    else 0.8

/-- `ApartmentAnalyzer.calculate_apartment_score`: the weighted sum of
the six sub-scores plus the flat amenity bonuses, capped at 1. -/
noncomputable def calculate_apartment_score (w : ScoringWeights)
    (p : ScoringPreferences) (a : Apartment) : ℝ :=
  min 1
    (w.price_weight * score_price p a.price +
      w.fee_weight * score_fee p a.fee +
      w.price_per_m2_weight * score_price_per_m2 p a.price_per_m2 +
      w.rooms_weight * score_rooms p a.rooms +
      w.year_built_weight * score_year_built p a.year_built +
      w.floor_weight * score_floor p a.floor a.total_floors +
      (if a.has_elevator then w.elevator_weight else 0) +
      (if a.has_balcony then w.balcony_weight else 0))

/-- Ordering used by the ranking step: left record scores at least the
right record (descending sort key). -/
def scoreGe (x y : Apartment × ℝ) : Prop := y.2 ≤ x.2

noncomputable instance : DecidableRel scoreGe :=
  fun x y => inferInstanceAs (Decidable (y.2 ≤ x.2))

instance : IsTotal (Apartment × ℝ) scoreGe := ⟨fun a b => le_total b.2 a.2⟩

instance : IsTrans (Apartment × ℝ) scoreGe := ⟨fun a b c h1 h2 => le_trans h2 h1⟩

/-- The ranking step of `ApartmentAnalyzer.analyze_apartments` on cleaned
records: score every record, sort by score descending (modelling
`sort_values('score', ascending=False)` by an insertion sort under
`scoreGe`), then attach the rank column `range(1, len + 1)`. -/
noncomputable def analyze_apartments (w : ScoringWeights)
    (p : ScoringPreferences) (records : List Apartment) :
    List (ℕ × Apartment × ℝ) :=
  let scored := records.map fun a => (a, calculate_apartment_score w p a)
  List.zip (List.range' 1 records.length) (scored.insertionSort scoreGe)

/-- Preferences with a nonsensical negative preferred room minimum. -/
def weirdPrefs : ScoringPreferences :=
  { defaultPreferences with min_preferred_rooms := -2 }

/-- A concrete cleaned apartment row used to instantiate theorems. -/
noncomputable def aptDemo : Apartment :=
  { price := some 3000000, fee := some 3000, price_per_m2 := some 50000,
    rooms := some 2, year_built := some 1995, floor := some 2,
    total_floors := some 5, has_elevator := true, has_balcony := false }

/-- A second concrete cleaned apartment row, scoring differently. -/
noncomputable def aptDemo2 : Apartment :=
  { price := some 4000000, fee := some 4500, price_per_m2 := some 60000,
    rooms := some 3, year_built := some 2010, floor := some 4,
    total_floors := some 8, has_elevator := true, has_balcony := false }

theorem dedupRun_length (seen : List Value) (items : List Item) :
    (dedupRun seen items).length = items.length := by
  induction items generalizing seen with
  | nil => rfl
  | cons it its ih =>
    by_cases h : it.url ∈ seen <;> simp [dedupRun, h, ih]

/-- Whether the key is already in the seen set only matters up to
membership, so re-inserting a present key does not change later flags. -/
theorem dedupRun_congr (seen₁ seen₂ : List Value) (items : List Item)
    (h : ∀ v, v ∈ seen₁ ↔ v ∈ seen₂) :
    dedupRun seen₁ items = dedupRun seen₂ items := by
  induction items generalizing seen₁ seen₂ with
  | nil => rfl
  | cons it its ih =>
    by_cases hm : it.url ∈ seen₁
    · have hm₂ : it.url ∈ seen₂ := (h _).mp hm
      simp only [dedupRun, if_pos hm, if_pos hm₂, ih seen₁ seen₂ h]
    · have hm₂ : it.url ∉ seen₂ := fun hc => hm ((h _).mpr hc)
      simp only [dedupRun, if_neg hm, if_neg hm₂]
      refine congrArg _ (ih _ _ fun v => ?_)
      simp [h v]

/-- Unfolding step: the head's flag is `url ∉ seen`, and the tail runs
with the head's key inserted (inserting an already-present key is
invisible to membership). -/
theorem dedupRun_cons (seen : List Value) (it : Item) (its : List Item) :
    dedupRun seen (it :: its) =
      decide (it.url ∉ seen) :: dedupRun (it.url :: seen) its := by
  by_cases h : it.url ∈ seen
  · have hdec : decide (it.url ∉ seen) = false := by simp [h]
    rw [hdec]
    simp only [dedupRun, if_pos h]
    refine congrArg _ (dedupRun_congr _ _ _ fun v => ?_)
    constructor
    · intro hv; exact List.mem_cons_of_mem _ hv
    · intro hv
      rcases List.mem_cons.mp hv with hv | hv
      · exact hv ▸ h
      · exact hv
  · simp [dedupRun, if_neg h, h]

theorem forall_earlier_cons (it : Item) (its : List Item) (k : ℕ) (u : Value) :
    (∀ j (hj : j < (it :: its).length), j < k + 1 →
        ((it :: its).get ⟨j, hj⟩).url ≠ u) ↔
      (it.url ≠ u ∧
        ∀ j (hj : j < its.length), j < k → ((its.get ⟨j, hj⟩).url ≠ u)) := by
  constructor
  · intro h
    refine ⟨h 0 (Nat.succ_pos _) (Nat.succ_pos _), fun j hj hjk => ?_⟩
    exact h (j + 1) (Nat.succ_lt_succ hj) (Nat.succ_lt_succ hjk)
  · intro h j hj hjk
    cases j with
    | zero => exact h.1
    | succ m =>
      exact h.2 m (Nat.lt_of_succ_lt_succ hj) (Nat.lt_of_succ_lt_succ hjk)

/-- Characterization of the deduplicator: an item is accepted exactly when
its key is not in the initial seen set and no earlier item in the stream
carries the same key. -/
theorem dedupRun_getD_true_iff (seen : List Value) (items : List Item)
    (i : ℕ) (hi : i < items.length) :
    ((dedupRun seen items).getD i false = true ↔
      ((items.get ⟨i, hi⟩).url ∉ seen ∧
        ∀ j (hj : j < items.length), j < i →
          ((items.get ⟨j, hj⟩).url ≠ (items.get ⟨i, hi⟩).url))) := by
  induction items generalizing seen i with
  | nil => exact absurd hi (Nat.not_lt_zero _)
  | cons it its ih =>
    cases i with
    | zero =>
      rw [dedupRun_cons]
      simp only [List.getD_cons_zero, List.get_cons_zero, decide_eq_true_eq]
      constructor
      · intro h; exact ⟨h, fun j hj hj0 => absurd hj0 (Nat.not_lt_zero _)⟩
      · intro h; exact h.1
    | succ k =>
      rw [dedupRun_cons]
      have hk : k < its.length := Nat.lt_of_succ_lt_succ hi
      simp only [List.getD_cons_succ, List.get_cons_succ]
      rw [ih (it.url :: seen) k hk,
        forall_earlier_cons it its k ((its.get ⟨k, hk⟩).url)]
      constructor
      · rintro ⟨hmem, hearlier⟩
        have h1 : (its.get ⟨k, hk⟩).url ≠ it.url := by
          intro hc; exact hmem (hc ▸ List.mem_cons_self _ _)
        have h2 : (its.get ⟨k, hk⟩).url ∉ seen := by
          intro hc; exact hmem (List.mem_cons_of_mem _ hc)
        exact ⟨h2, fun hc => h1 hc.symm, hearlier⟩
      · rintro ⟨h2, h1, hearlier⟩
        refine ⟨fun hc => ?_, hearlier⟩
        rcases List.mem_cons.mp hc with hc | hc
        · exact h1 hc.symm
        · exact h2 hc

/-- Claim C3: in any item stream fed to the deduplicator, among the
records whose url equals a given string, exactly the first in arrival
order is accepted and every later one is rejected as a duplicate,
regardless of the other fields: a record with that url is accepted iff no
earlier record carries the same url. -/
theorem claim_C3 (items : List Item) (u : String) (i : ℕ)
    (hi : i < items.length) (hu : (items.get ⟨i, hi⟩).url = Value.vStr u) :
    ((dedupRun [] items).getD i false = true ↔
      ∀ j (hj : j < items.length), j < i →
        (items.get ⟨j, hj⟩).url ≠ Value.vStr u) := by
  rw [dedupRun_getD_true_iff [] items i hi, hu]
  simp

/-- Witness for claim C3 at a concrete stream: two items sharing a url. -/
theorem claim_C3_witness :
    ((dedupRun [] [itemA, itemB]).getD 1 false = true ↔
      ∀ j (hj : j < ([itemA, itemB] : List Item).length), j < 1 →
        (([itemA, itemB] : List Item).get ⟨j, hj⟩).url ≠
          Value.vStr "https://x/1") :=
  claim_C3 [itemA, itemB] "https://x/1" 1 (by decide) (by decide)

/-- Claim C8 counterexample: two records both lacking the url field are
NOT treated as always-unique: the deduplicator keys on the `None` value,
so the second url-less record is rejected as a duplicate of the first. -/
theorem claim_C8_counterexample :
    (itemC.url = Value.vNone ∧ itemD.url = Value.vNone) ∧
      dedupRun [] [itemC, itemD] = [true, false] := by decide

/-- Claim C8 (amended): a record lacking the url field is deduplicated
under the `None` identity: it is accepted iff no earlier record in the
stream also lacks the url field, so the first url-less record is accepted
and every later url-less record is rejected as its duplicate. -/
theorem claim_C8_amended (items : List Item) (i : ℕ)
    (hi : i < items.length) (hu : (items.get ⟨i, hi⟩).url = Value.vNone) :
    ((dedupRun [] items).getD i false = true ↔
      ∀ j (hj : j < items.length), j < i →
        (items.get ⟨j, hj⟩).url ≠ Value.vNone) := by
  rw [dedupRun_getD_true_iff [] items i hi, hu]
  simp

/-- Witness for the amended claim C8 at a concrete stream of two url-less
items. -/
theorem claim_C8_amended_witness :
    ((dedupRun [] [itemC, itemD]).getD 1 false = true ↔
      ∀ j (hj : j < ([itemC, itemD] : List Item).length), j < 1 →
        (([itemC, itemD] : List Item).get ⟨j, hj⟩).url ≠ Value.vNone) :=
  claim_C8_amended [itemC, itemD] 1 (by decide) (by decide)

theorem truthy_vBool (b : Bool) : truthy (Value.vBool b) = b := rfl

theorem enrichItem_scraped_at_of_truthy (t : String) (it : Item)
    (hs : truthy it.scraped_at = true) :
    (enrichItem t it).scraped_at = it.scraped_at := by
  unfold enrichItem
  simp [hs]

theorem priceFatal_iff (v : Value) :
    priceFatal v = true ↔ ∃ n, parseIntPy v = some n ∧ n ≤ 0 := by
  unfold priceFatal
  cases h : parseIntPy v with
  | none => simp
  | some n => simp

theorem feeFatal_iff (v : Value) :
    feeFatal v = true ↔ ∃ n, parseIntPy v = some n ∧ n < 0 := by
  unfold feeFatal
  cases h : parseIntPy v with
  | none => simp
  | some n => simp

theorem parseIntPy_whitespace_sign : parseIntPy (Value.vStr "\t-5") = some (-5) := rfl

theorem parseIntPy_trailing_newline : parseIntPy (Value.vStr "0\n") = some 0 := rfl

theorem parseIntPy_underscores : parseIntPy (Value.vStr "-1_000") = some (-1000) := rfl

theorem parseIntPy_bad_underscores :
    parseIntPy (Value.vStr "_1") = none ∧ parseIntPy (Value.vStr "1_") = none ∧
      parseIntPy (Value.vStr "1__0") = none := ⟨rfl, rfl, rfl⟩

theorem parseIntPy_arabic_digits : parseIntPy (Value.vStr "١٢٣") = some 123 := rfl

theorem parseIntPy_control_not_space :
    parseIntPy (Value.vStr "\x1c5") = none := rfl

theorem parseIntPy_nel_space : parseIntPy (Value.vStr "5\x85") = some 5 := rfl

theorem validateItem_drops_tab_negative_price :
    validateItem itemTabPrice = Except.error "Invalid price" := rfl

/-- Claim C5 counterexample: a record whose price does not parse to a
number after stripping is NOT rejected: the validator only logs a warning
and keeps the item. -/
theorem claim_C5_counterexample :
    itemBadPrice.price = Value.vStr "not a number" ∧
      parseIntPy itemBadPrice.price = none ∧
      validateItem itemBadPrice = Except.ok itemBadPrice :=
  ⟨rfl, rfl, rfl⟩

/-- Claim C5 (amended): the validator accepts a record exactly when the
required fields url, source and address are truthy, every parse of a
truthy price is positive, and every parse of a truthy fee is
non-negative, where parsing is Python `int()` after removing spaces and
commas (surrounding whitespace stripped, underscore separators and
Unicode decimal digits accepted); in particular a price that fails to
parse is advisory only (logged, record kept), while a truthy price
parsing to a non-positive number is fatal. -/
theorem claim_C5_amended (it : Item) :
    validateItem it = Except.ok it ↔
      (truthy it.url = true ∧ truthy it.source = true ∧
        truthy it.address = true ∧
        (∀ n, parseIntPy it.price = some n → truthy it.price = true → 0 < n) ∧
        (∀ n, parseIntPy it.fee = some n → truthy it.fee = true → 0 ≤ n)) := by
  unfold validateItem
  split_ifs with h1 h2 h3 h4 h5
  · simp only [Bool.not_eq_true] at *
    simp [h1]
  · simp [h2]
  · simp [h3]
  · rw [Bool.and_eq_true] at h4
    obtain ⟨hp, hf⟩ := h4
    rw [priceFatal_iff] at hf
    obtain ⟨n, hn, hn0⟩ := hf
    simp only [reduceCtorEq, false_iff, not_and]
    intro _ _ _ hall _
    exact absurd (hall n hn hp) (by omega)
  · rw [Bool.and_eq_true] at h5
    obtain ⟨hp, hf⟩ := h5
    rw [feeFatal_iff] at hf
    obtain ⟨n, hn, hn0⟩ := hf
    simp only [reduceCtorEq, false_iff, not_and]
    intro _ _ _ _ hall
    exact absurd (hall n hn hp) (by omega)
  · simp only [Except.ok.injEq, true_iff]
    rw [Bool.not_eq_false] at h1 h2 h3
    refine ⟨h1, h2, h3, ?_, ?_⟩
    · intro n hn hp
      by_contra hle
      refine h4 ?_
      rw [Bool.and_eq_true, priceFatal_iff]
      exact ⟨hp, n, hn, by omega⟩
    · intro n hn hp
      by_contra hlt
      refine h5 ?_
      rw [Bool.and_eq_true, feeFatal_iff]
      exact ⟨hp, n, hn, by omega⟩

/-- Witness for the amended claim C5 at a concrete valid item. -/
theorem claim_C5_amended_witness :
    validateItem itemA = Except.ok itemA ↔
      (truthy itemA.url = true ∧ truthy itemA.source = true ∧
        truthy itemA.address = true ∧
        (∀ n, parseIntPy itemA.price = some n → truthy itemA.price = true → 0 < n) ∧
        (∀ n, parseIntPy itemA.fee = some n → truthy itemA.fee = true → 0 ≤ n)) :=
  claim_C5_amended itemA

/-- Claim C7: the Enricher is idempotent on clean records: an existing
truthy `scraped_at` is never overwritten, and a record whose elevator and
balcony fields are already strict booleans and whose `scraped_at` is
present is returned completely unchanged. -/
theorem claim_C7 (t : String) (it : Item)
    (hs : truthy it.scraped_at = true) :
    (enrichItem t it).scraped_at = it.scraped_at ∧
      ((∃ b, it.has_elevator = Value.vBool b) →
        (∃ b, it.has_balcony = Value.vBool b) → enrichItem t it = it) := by
  refine ⟨enrichItem_scraped_at_of_truthy t it hs, ?_⟩
  rintro ⟨b1, hb1⟩ ⟨b2, hb2⟩
  obtain ⟨u, so, ad, pr, fe, ppm, ro, yb, hc, el, ba, fl, tf, sa⟩ := it
  simp only at hs hb1 hb2
  subst hb1; subst hb2
  simp [enrichItem, coerceBool, truthy_vBool, hs]

/-- Witness for claim C7 at a concrete clean item. -/
theorem claim_C7_witness :
    (enrichItem "2025-01-01T00:00:00" itemClean).scraped_at =
        itemClean.scraped_at ∧
      enrichItem "2025-01-01T00:00:00" itemClean = itemClean :=
  ⟨(claim_C7 "2025-01-01T00:00:00" itemClean (by decide)).1,
    (claim_C7 "2025-01-01T00:00:00" itemClean (by decide)).2
      ⟨true, by decide⟩ ⟨false, by decide⟩⟩

/-- Claim C9: when avoiding the ground floor is configured, every
non-missing floor value at most 1 scores exactly 0.2, irrespective of the
configured floor band or any other preference. -/
theorem claim_C9 (p : ScoringPreferences) (f : ℝ) (tf : Option ℝ)
    (havoid : p.avoid_ground_floor = true) (hf : f ≤ 1) :
    score_floor p (some f) tf = 0.2 := by
  simp only [score_floor]
  rw [if_pos ⟨havoid, hf⟩]

/-- Witness for claim C9: floor 1 under the default preferences. -/
theorem claim_C9_witness : score_floor defaultPreferences (some 1) none = 0.2 :=
  claim_C9 defaultPreferences 1 none rfl le_rfl

/-- Claim C10: a floor-band bound set to 0 is falsy in Python, so the
band test is skipped exactly as when the bound is None: every non-missing
floor above the ground-floor cutoff receives the flat neutral 0.8, the
same value produced with no band configured at all. -/
theorem claim_C10 (p : ScoringPreferences) (f : ℝ) (tf tf' : Option ℝ)
    (hz : p.preferred_min_floor = some 0 ∨ p.preferred_max_floor = some 0)
    (hf : 1 < f) :
    score_floor p (some f) tf = 0.8 ∧
      score_floor
        { p with preferred_min_floor := none, preferred_max_floor := none }
        (some f) tf' = 0.8 := by
  have hcond : ¬(p.avoid_ground_floor = true ∧ f ≤ 1) := by
    rintro ⟨-, hle⟩
    exact absurd hf (not_lt.mpr hle)
  constructor
  · simp only [score_floor]
    rw [if_neg hcond, if_neg]
    rintro ⟨h1, h2⟩
    rcases hz with hz | hz
    · rw [hz] at h1
      simp [intTruthy] at h1
    · rw [hz] at h2
      simp [intTruthy] at h2
  · simp only [score_floor]
    dsimp only
    rw [if_neg hcond, if_neg]
    rintro ⟨h1, -⟩
    simp [intTruthy] at h1

/-- Witness for claim C10: minimum band bound 0, floor 3. -/
theorem claim_C10_witness :
    score_floor { defaultPreferences with preferred_min_floor := some 0 }
        (some 3) none = 0.8 ∧
      score_floor
        { { defaultPreferences with preferred_min_floor := some 0 } with
          preferred_min_floor := none, preferred_max_floor := none }
        (some 3) none = 0.8 :=
  claim_C10 { defaultPreferences with preferred_min_floor := some 0 } 3 none
    none (Or.inl rfl) (by norm_num)

theorem clamp01_nonneg (y : ℝ) : 0 ≤ max 0 (min 1 y) := le_max_left 0 _

theorem clamp01_le_one (y : ℝ) : max 0 (min 1 y) ≤ 1 :=
  max_le (by norm_num) (min_le_left 1 y)

/-- The exponential-decay branch stays at most 1 when the preferred
ceiling is positive and the value has passed it. -/
theorem decay_le_one (k mx x : ℝ) (hk1 : k ≤ 1) (hmx : 0 < mx)
    (hx : mx ≤ x) : max 0 (k * Real.exp (-((x - mx) / mx))) ≤ 1 := by
  have hd : 0 ≤ (x - mx) / mx := div_nonneg (by linarith) hmx.le
  have he : Real.exp (-((x - mx) / mx)) ≤ 1 := by
    rw [← Real.exp_zero]
    exact Real.exp_le_exp.mpr (by linarith)
  have he0 : 0 < Real.exp (-((x - mx) / mx)) := Real.exp_pos _
  refine max_le (by norm_num) ?_
  nlinarith

theorem score_price_nonneg (p : ScoringPreferences) (v : Option ℝ) :
    0 ≤ score_price p v := by
  cases v with
  | none => norm_num [score_price]
  | some x =>
    simp only [score_price]
    split_ifs <;> exact le_max_left 0 _

theorem score_fee_nonneg (p : ScoringPreferences) (v : Option ℝ) :
    0 ≤ score_fee p v := by
  cases v with
  | none => norm_num [score_fee]
  | some x =>
    simp only [score_fee]
    split_ifs <;> exact le_max_left 0 _

theorem score_price_per_m2_nonneg (p : ScoringPreferences) (v : Option ℝ) :
    0 ≤ score_price_per_m2 p v := by
  cases v with
  | none => norm_num [score_price_per_m2]
  | some x =>
    simp only [score_price_per_m2]
    split_ifs <;> exact le_max_left 0 _

theorem score_rooms_nonneg (p : ScoringPreferences) (v : Option ℝ) :
    0 ≤ score_rooms p v := by
  cases v with
  | none => norm_num [score_rooms]
  | some x =>
    simp only [score_rooms]
    split_ifs
    · norm_num
    · exact le_max_left 0 _
    · exact le_trans (by norm_num) (le_max_left 0.1 _)

theorem score_year_built_nonneg (p : ScoringPreferences) (v : Option ℝ) :
    0 ≤ score_year_built p v := by
  cases v with
  | none => norm_num [score_year_built]
  | some x =>
    simp only [score_year_built]
    split_ifs
    · norm_num
    · exact le_trans (by norm_num) (le_max_left 0.1 _)
    · norm_num

theorem score_floor_nonneg (p : ScoringPreferences) (v tf : Option ℝ) :
    0 ≤ score_floor p v tf := by
  cases v with
  | none => norm_num [score_floor]
  | some x =>
    simp only [score_floor]
    split_ifs <;> norm_num

theorem score_floor_le_one (p : ScoringPreferences) (v tf : Option ℝ) :
    score_floor p v tf ≤ 1 := by
  cases v with
  | none => norm_num [score_floor]
  | some x =>
    simp only [score_floor]
    split_ifs <;> norm_num

theorem score_price_le_one (p : ScoringPreferences) (v : Option ℝ)
    (hp : 0 < p.max_preferred_price) : score_price p v ≤ 1 := by
  cases v with
  | none => norm_num [score_price]
  | some x =>
    simp only [score_price]
    split_ifs with h
    · exact clamp01_le_one _
    · exact decay_le_one 0.3 _ x (by norm_num) hp (le_of_lt (not_le.mp h))

theorem score_fee_le_one (p : ScoringPreferences) (v : Option ℝ)
    (hp : 0 < p.max_preferred_fee) : score_fee p v ≤ 1 := by
  cases v with
  | none => norm_num [score_fee]
  | some x =>
    simp only [score_fee]
    split_ifs with h
    · exact clamp01_le_one _
    · exact decay_le_one 0.3 _ x (by norm_num) hp (le_of_lt (not_le.mp h))

theorem score_price_per_m2_le_one (p : ScoringPreferences) (v : Option ℝ)
    (hp : 0 < p.max_preferred_price_per_m2) : score_price_per_m2 p v ≤ 1 := by
  cases v with
  | none => norm_num [score_price_per_m2]
  | some x =>
    simp only [score_price_per_m2]
    split_ifs with h
    · exact clamp01_le_one _
    · exact decay_le_one 0.2 _ x (by norm_num) hp (le_of_lt (not_le.mp h))

theorem score_rooms_le_one (p : ScoringPreferences) (v : Option ℝ)
    (hr : 0 < p.min_preferred_rooms) : score_rooms p v ≤ 1 := by
  cases v with
  | none => norm_num [score_rooms]
  | some x =>
    simp only [score_rooms]
    split_ifs with h1 h2
    · norm_num
    · exact max_le (by norm_num) ((div_le_one hr).mpr h2.le)
    · have hge : p.min_preferred_rooms ≤ x := not_lt.mp h2
      have hgt : p.max_preferred_rooms < x := by
        by_contra hc
        exact h1 ⟨hge, not_lt.mp hc⟩
      refine max_le (by norm_num) (by nlinarith)

theorem score_year_built_le_one (p : ScoringPreferences) (v : Option ℝ) :
    score_year_built p v ≤ 1 := by
  cases v with
  | none => norm_num [score_year_built]
  | some y =>
    simp only [score_year_built]
    split_ifs with h1 h2
    · norm_num
    · have hlt : y < p.preferred_year_threshold := not_le.mp h1
      have hd : 0 < p.preferred_year_threshold - p.min_preferred_year := by
        linarith
      exact max_le (by norm_num) ((div_le_one hd).mpr (by linarith))
    · norm_num

/-- Claim C1 counterexample: with a preference configuration whose
preferred room minimum is negative, the rooms sub-score of a record
exceeds 1, so not every preference configuration keeps every sub-score
inside the unit interval. -/
theorem claim_C1_counterexample : 1 < score_rooms weirdPrefs (some (-3)) := by
  have hval : score_rooms weirdPrefs (some (-3)) = max 0 ((-3 : ℝ) / (-2)) := by
    simp only [score_rooms, weirdPrefs, defaultPreferences]
    norm_num
  rw [hval, max_eq_right (by norm_num : (0 : ℝ) ≤ (-3 : ℝ) / (-2))]
  norm_num

/-- Claim C1 (amended): for non-negative weights the final score of
`calculate_apartment_score` always lies in the unit interval; each of the
six per-attribute sub-scores lies in the unit interval provided the
preference configuration is well-formed, that is, the preferred maxima
for price, fee and price-per-m2 and the preferred room minimum are
positive (as the defaults are). -/
theorem claim_C1_amended (w : ScoringWeights) (p : ScoringPreferences)
    (a : Apartment)
    (hw : 0 ≤ w.price_weight ∧ 0 ≤ w.fee_weight ∧
      0 ≤ w.price_per_m2_weight ∧ 0 ≤ w.rooms_weight ∧
      0 ≤ w.year_built_weight ∧ 0 ≤ w.elevator_weight ∧
      0 ≤ w.balcony_weight ∧ 0 ≤ w.floor_weight) :
    (0 ≤ calculate_apartment_score w p a ∧
      calculate_apartment_score w p a ≤ 1) ∧
    (0 < p.max_preferred_price → 0 < p.max_preferred_fee →
      0 < p.max_preferred_price_per_m2 → 0 < p.min_preferred_rooms →
      ((0 ≤ score_price p a.price ∧ score_price p a.price ≤ 1) ∧
        (0 ≤ score_fee p a.fee ∧ score_fee p a.fee ≤ 1) ∧
        (0 ≤ score_price_per_m2 p a.price_per_m2 ∧
          score_price_per_m2 p a.price_per_m2 ≤ 1) ∧
        (0 ≤ score_rooms p a.rooms ∧ score_rooms p a.rooms ≤ 1) ∧
        (0 ≤ score_year_built p a.year_built ∧
          score_year_built p a.year_built ≤ 1) ∧
        (0 ≤ score_floor p a.floor a.total_floors ∧
          score_floor p a.floor a.total_floors ≤ 1))) := by
  obtain ⟨hw1, hw2, hw3, hw4, hw5, hw6, hw7, hw8⟩ := hw
  have n1 := score_price_nonneg p a.price
  have n2 := score_fee_nonneg p a.fee
  have n3 := score_price_per_m2_nonneg p a.price_per_m2
  have n4 := score_rooms_nonneg p a.rooms
  have n5 := score_year_built_nonneg p a.year_built
  have n6 := score_floor_nonneg p a.floor a.total_floors
  constructor
  · constructor
    · refine le_min (by norm_num) ?_
      have m1 := mul_nonneg hw1 n1
      have m2 := mul_nonneg hw2 n2
      have m3 := mul_nonneg hw3 n3
      have m4 := mul_nonneg hw4 n4
      have m5 := mul_nonneg hw5 n5
      have m6 := mul_nonneg hw8 n6
      have b1 : 0 ≤ (if a.has_elevator then w.elevator_weight else 0) := by
        split_ifs
        · exact hw6
        · exact le_refl 0
      have b2 : 0 ≤ (if a.has_balcony then w.balcony_weight else 0) := by
        split_ifs
        · exact hw7
        · exact le_refl 0
      linarith
    · exact min_le_left _ _
  · intro hp hf hm hr
    exact ⟨⟨n1, score_price_le_one p a.price hp⟩,
      ⟨n2, score_fee_le_one p a.fee hf⟩,
      ⟨n3, score_price_per_m2_le_one p a.price_per_m2 hm⟩,
      ⟨n4, score_rooms_le_one p a.rooms hr⟩,
      ⟨n5, score_year_built_le_one p a.year_built⟩,
      ⟨n6, score_floor_le_one p a.floor a.total_floors⟩⟩

/-- Witness for the amended claim C1 at the default configuration and a
concrete record. -/
theorem claim_C1_amended_witness :
    (0 ≤ calculate_apartment_score defaultWeights defaultPreferences aptDemo ∧
      calculate_apartment_score defaultWeights defaultPreferences aptDemo ≤ 1) ∧
    (0 ≤ score_price defaultPreferences aptDemo.price ∧
      score_price defaultPreferences aptDemo.price ≤ 1) :=
  ⟨(claim_C1_amended defaultWeights defaultPreferences aptDemo
      (by norm_num [defaultWeights])).1,
    ((claim_C1_amended defaultWeights defaultPreferences aptDemo
        (by norm_num [defaultWeights])).2
      (by norm_num [defaultPreferences]) (by norm_num [defaultPreferences])
      (by norm_num [defaultPreferences]) (by norm_num [defaultPreferences])).1⟩

/-- The clamped linear branch is antitone in the raw value when the
interpolation interval is non-degenerate. -/
theorem clampLinear_anti (mn mx v1 v2 : ℝ) (h12 : v1 ≤ v2) (hd : mn < mx) :
    max 0 (min 1 (1 - (v2 - mn) / (mx - mn))) ≤
      max 0 (min 1 (1 - (v1 - mn) / (mx - mn))) := by
  have hd' : 0 < mx - mn := sub_pos.mpr hd
  have hdiv : (v1 - mn) / (mx - mn) ≤ (v2 - mn) / (mx - mn) :=
    (div_le_div_iff_of_pos_right hd').mpr (by linarith)
  exact max_le_max le_rfl (min_le_min le_rfl (by linarith))

/-- Claim C4 counterexample: under the default preferences, the fee
4999 lies strictly below the preferred ceiling 5000 but scores strictly
lower than the larger fee 5001, because the score jumps from almost 0 up
to almost 0.3 when the value crosses the ceiling into the decay branch. -/
theorem claim_C4_counterexample :
    (4999 : ℝ) < 5001 ∧
      (4999 : ℝ) < defaultPreferences.max_preferred_fee ∧
      score_fee defaultPreferences (some 4999) <
        score_fee defaultPreferences (some 5001) := by
  refine ⟨by norm_num, by norm_num [defaultPreferences], ?_⟩
  have h1 : score_fee defaultPreferences (some 4999) = 1 / 3000 := by
    simp only [score_fee, defaultPreferences]
    rw [if_pos (by norm_num)]
    rw [min_eq_right (by norm_num), max_eq_right (by norm_num)]
    norm_num
  have h2 : score_fee defaultPreferences (some 5001) =
      max 0 (0.3 * Real.exp (-(1 / 5000))) := by
    simp only [score_fee, defaultPreferences]
    rw [if_neg (by norm_num)]
    norm_num
  rw [h1, h2]
  have hexp : (1 : ℝ) - 1 / 5000 ≤ Real.exp (-(1 / 5000)) := by
    have h := Real.add_one_le_exp (-(1 / 5000) : ℝ)
    linarith
  have hstep : (0.3 : ℝ) * (1 - 1 / 5000) ≤ 0.3 * Real.exp (-(1 / 5000)) :=
    mul_le_mul_of_nonneg_left hexp (by norm_num)
  have : (1 : ℝ) / 3000 < 0.3 * (1 - 1 / 5000) := by norm_num
  calc (1 : ℝ) / 3000 < 0.3 * (1 - 1 / 5000) := this
    _ ≤ 0.3 * Real.exp (-(1 / 5000)) := hstep
    _ ≤ max 0 (0.3 * Real.exp (-(1 / 5000))) := le_max_right _ _

/-- Claim C4 (amended): for the price, fee and price-per-m2 scoring
functions, the sub-score is antitone on the region at or below the
preferred ceiling when the acceptable minimum lies strictly below the
ceiling: for values v1 < v2 that are BOTH at most the ceiling, v1 never
scores strictly lower than v2 (the original claim fails only when v2 has
crossed the ceiling into the decay branch). -/
theorem claim_C4_amended (p : ScoringPreferences) (v1 v2 : ℝ)
    (h12 : v1 < v2) :
    (p.min_acceptable_price < p.max_preferred_price →
      v2 ≤ p.max_preferred_price →
      score_price p (some v2) ≤ score_price p (some v1)) ∧
    (p.min_acceptable_fee < p.max_preferred_fee →
      v2 ≤ p.max_preferred_fee →
      score_fee p (some v2) ≤ score_fee p (some v1)) ∧
    (p.min_acceptable_price_per_m2 < p.max_preferred_price_per_m2 →
      v2 ≤ p.max_preferred_price_per_m2 →
      score_price_per_m2 p (some v2) ≤ score_price_per_m2 p (some v1)) := by
  refine ⟨fun hd h2 => ?_, fun hd h2 => ?_, fun hd h2 => ?_⟩
  · simp only [score_price]
    rw [if_pos h2, if_pos (h12.le.trans h2)]
    exact clampLinear_anti _ _ v1 v2 h12.le hd
  · simp only [score_fee]
    rw [if_pos h2, if_pos (h12.le.trans h2)]
    exact clampLinear_anti _ _ v1 v2 h12.le hd
  · simp only [score_price_per_m2]
    rw [if_pos h2, if_pos (h12.le.trans h2)]
    exact clampLinear_anti _ _ v1 v2 h12.le hd

/-- Witness for the amended claim C4 on two concrete prices below the
default ceiling. -/
theorem claim_C4_amended_witness :
    score_price defaultPreferences (some 3000000) ≤
      score_price defaultPreferences (some 2000000) :=
  (claim_C4_amended defaultPreferences 2000000 3000000 (by norm_num)).1
    (by norm_num [defaultPreferences]) (by norm_num [defaultPreferences])

theorem analyze_apartments_length (w : ScoringWeights)
    (p : ScoringPreferences) (records : List Apartment) :
    (analyze_apartments w p records).length = records.length := by
  unfold analyze_apartments
  simp [List.length_insertionSort]

/-- Claim C2: the ranking step emits the rank column exactly 1..N in
order, and the score column is non-increasing from each rank to the
next. -/
theorem claim_C2 (w : ScoringWeights) (p : ScoringPreferences)
    (records : List Apartment) :
    (analyze_apartments w p records).map Prod.fst =
        List.range' 1 records.length ∧
      ∀ i (h1 : i < (analyze_apartments w p records).length)
        (h2 : i + 1 < (analyze_apartments w p records).length),
        ((analyze_apartments w p records).get ⟨i + 1, h2⟩).2.2 ≤
          ((analyze_apartments w p records).get ⟨i, h1⟩).2.2 := by
  have hslen :
      ((records.map fun a =>
        (a, calculate_apartment_score w p a)).insertionSort scoreGe).length =
        records.length := by
    rw [List.length_insertionSort, List.length_map]
  constructor
  · unfold analyze_apartments
    exact List.map_fst_zip _ _ (by rw [List.length_range', hslen])
  · intro i h1 h2
    have hsorted : List.Sorted scoreGe
        ((records.map fun a =>
          (a, calculate_apartment_score w p a)).insertionSort scoreGe) :=
      List.sorted_insertionSort scoreGe _
    have hpair := List.pairwise_iff_get.mp hsorted
    have h2z : i + 1 < (List.zip (List.range' 1 records.length)
        ((records.map fun a =>
          (a, calculate_apartment_score w p a)).insertionSort scoreGe)).length := h2
    have h1z : i < (List.zip (List.range' 1 records.length)
        ((records.map fun a =>
          (a, calculate_apartment_score w p a)).insertionSort scoreGe)).length := h1
    show ((List.zip (List.range' 1 records.length)
        ((records.map fun a =>
          (a, calculate_apartment_score w p a)).insertionSort scoreGe)).get
            ⟨i + 1, h2z⟩).2.2 ≤
      ((List.zip (List.range' 1 records.length)
        ((records.map fun a =>
          (a, calculate_apartment_score w p a)).insertionSort scoreGe)).get
            ⟨i, h1z⟩).2.2
    rw [List.get_zip, List.get_zip]
    exact hpair _ _ (Nat.lt_succ_self i)

/-- Witness for claim C2 on a concrete two-record batch. -/
theorem claim_C2_witness :
    (analyze_apartments defaultWeights defaultPreferences
        [aptDemo, aptDemo2]).map Prod.fst = List.range' 1 2 ∧
      ((analyze_apartments defaultWeights defaultPreferences
          [aptDemo, aptDemo2]).get
            ⟨1, by rw [analyze_apartments_length]; norm_num⟩).2.2 ≤
        ((analyze_apartments defaultWeights defaultPreferences
          [aptDemo, aptDemo2]).get
            ⟨0, by rw [analyze_apartments_length]; norm_num⟩).2.2 :=
  ⟨(claim_C2 defaultWeights defaultPreferences [aptDemo, aptDemo2]).1,
    (claim_C2 defaultWeights defaultPreferences [aptDemo, aptDemo2]).2 0
      (by rw [analyze_apartments_length]; norm_num)
      (by rw [analyze_apartments_length]; norm_num)⟩

end Pidgeon
